import Mathlib

/-!
Verification of the anomaly-detection core of a benchmark-performance meter.

The module under study builds per-benchmark time series from raw result
records (`create_dataframe`), scores the most recent value against the
history with a mean/std or median/MAD standardized score (`ZScore`,
`ModifiedZScore`, `check_last_run`), and scans a window of candidate split
points with a Chow-style structural-break F-test (`chow_test`,
`sequence_chow_test`).

Modelling conventions:
* Numeric values are rationals (`ℚ`); the one intrinsically irrational
  quantity, `np.std` (a square root), lives in `ℝ` via `Real.sqrt`.
* The F-distribution quantile `scipy.stats.f.ppf` is an external library
  function; it is modelled as an explicit function parameter
  `ppf : ℚ → ℕ → ℤ → ℚ` (confidence level, numerator dof, denominator dof).
* Fallible operations (a record missing a field, an empty series) are
  modelled with `Except` / `Option`.
* Python's `sorted` and `np.sort` are stable sorts; they are modelled with
  `List.insertionSort`, which is stable (`List.sublist_insertionSort`) and
  extensionally equal to any stable sort by the same key.
-/

namespace PerfMeter

/-! ## numpy statistics on rational samples -/

/-- Embeds `np.mean x`: the arithmetic mean `sum / length`. -/
def npMean (l : List ℚ) : ℚ := l.sum / l.length

/-- Embeds the square of `np.std x` (default `ddof=0`): the population
variance, mean of squared deviations from the mean. -/
def npVar (l : List ℚ) : ℚ := ((l.map fun x => (x - npMean l) ^ 2).sum) / l.length

/-- Embeds `np.std x` (population standard deviation, the square root of
`npVar`); irrational in general, hence valued in `ℝ`. -/
noncomputable def npStd (l : List ℚ) : ℝ := Real.sqrt (npVar l)

/-- Embeds `np.median x`: sort ascending; for odd length take the middle
element, for even length average the two middle elements.  (`np.median` of
an empty array is NaN; the `0` returned here is junk that no claim relies
on: every use below is guarded by nonemptiness or feeds a `test` that
ignores the fitted state.) -/
def npMedian (l : List ℚ) : ℚ :=
  let s := List.insertionSort (fun a b => a ≤ b) l
  let n := l.length
  if n = 0 then 0
  else if n % 2 = 1 then s.getD (n / 2) 0
  else (s.getD (n / 2 - 1) 0 + s.getD (n / 2) 0) / 2

/-! ## The two deviation scorers

Each scorer is a two-phase fit/transform/test protocol.  The mutable
Python instance state is modelled as an explicit state value: `__init__`
becomes `init`, and `fit` returns the state it stores. -/

/-- State of the mean-based scorer `ZScore`: `self._mean` and `self._std`. -/
structure ZScore where
  mean : ℚ
  std : ℝ

/-- Embeds `ZScore.__init__`: `_mean = 0`, `_std = 1`. -/
def ZScore.init : ZScore := ⟨0, 1⟩

/-- Embeds `ZScore.fit`: `_mean = np.mean(x)`, `_std = np.std(x)`. -/
noncomputable def ZScore.fit (x : List ℚ) : ZScore := ⟨npMean x, npStd x⟩

/-- Embeds `ZScore.transform`: `(x - self._mean) / self._std`. -/
noncomputable def ZScore.transform (s : ZScore) (x : ℚ) : ℝ := ((x : ℝ) - (s.mean : ℝ)) / s.std

/-- Embeds `ZScore.test`: `np.abs(x) > threshold`.  Note that the source
compares the *raw argument* against the threshold; it does not consult the
fitted state and does not call `transform`. -/
def ZScore.test (_s : ZScore) (x : ℚ) (threshold : ℚ) : Bool := decide (|x| > threshold)

/-- Default threshold of `ZScore.test` (`threshold=2`). -/
def zThresholdDefault : ℚ := 2

/-- State of the median-based scorer `ModifiedZScore`: `self._median` and
`self._mda` (median of absolute deviations). -/
structure ModifiedZScore where
  median : ℚ
  mda : ℚ

/-- Embeds the constant `self._k = 0.6745` of `ModifiedZScore`. -/
def mzsK : ℚ := 6745 / 10000

/-- Embeds `ModifiedZScore.__init__`: `_median = 0`, `_mda = 1`. -/
def ModifiedZScore.init : ModifiedZScore := ⟨0, 1⟩

/-- Embeds `ModifiedZScore.fit`: `_median = np.median(x)`,
`_mda = np.median(np.abs(x - _median))`. -/
def ModifiedZScore.fit (x : List ℚ) : ModifiedZScore :=
  let m := npMedian x
  ⟨m, npMedian (x.map fun v => |v - m|)⟩

/-- Embeds `ModifiedZScore.transform`: `_k * (x - _median) / _mda`. -/
def ModifiedZScore.transform (s : ModifiedZScore) (x : ℚ) : ℚ := mzsK * (x - s.median) / s.mda

/-- Embeds `ModifiedZScore.test`: `np.abs(x) > threshold`.  As with
`ZScore.test`, the source compares the raw argument against the threshold
and never calls `transform`. -/
def ModifiedZScore.test (_s : ModifiedZScore) (x : ℚ) (threshold : ℚ) : Bool :=
  decide (|x| > threshold)

/-- Default threshold of `ModifiedZScore.test` (`threshold=3.5`). -/
def mzsThresholdDefault : ℚ := 7 / 2

/-! ## Data model: raw records and dataframe rows -/

/-- The metric mapping `res['values']` of one raw result record. -/
structure Values where
  min : ℚ
  max : ℚ
  p99 : ℚ
  p99_9 : ℚ
  avg : ℚ
  rps : ℚ
  total : ℚ
  deriving DecidableEq, Repr

/-- One raw result record `res`; `date` and `values` are optional so that a
record missing either required field is representable. -/
structure RawResult where
  date : Option ℤ
  values : Option Values
  deriving DecidableEq, Repr

/-- One raw benchmark `bench`: a name and its `latest_results`. -/
structure RawBench where
  name : String
  latest_results : List RawResult
  deriving DecidableEq, Repr

/-- The failure conditions of series construction: a record missing the
timestamp field (`res['date']` raises `KeyError`) or missing the metric
mapping (`res['values']` raises `KeyError`). -/
inductive MalformedRecord where
  | missingDate
  | missingValues
  deriving DecidableEq, Repr

/-- One dataframe row as built by `create_dataframe`. -/
structure Row where
  name : String
  date : ℤ
  norm_date : ℕ
  min : ℚ
  max : ℚ
  p99 : ℚ
  p99_9 : ℚ
  avg : ℚ
  rps : ℚ
  total : ℚ
  deriving DecidableEq, Repr

/-- The metric-name parameter of the analysis entry points (a dataframe
column name in the source). -/
inductive Metric where
  | min
  | max
  | p99
  | p99_9
  | avg
  | rps
  | total
  deriving DecidableEq, Repr

/-- Column selection `row[parameter]`. -/
def Row.metric (r : Row) : Metric → ℚ
  | .min => r.min
  | .max => r.max
  | .p99 => r.p99
  | .p99_9 => r.p99_9
  | .avg => r.avg
  | .rps => r.rps
  | .total => r.total

/-! ## Series construction (`create_dataframe`) -/

/-- Extracts `res['date']` for every record of one benchmark, failing at the
first record missing the field.  (Python's `sorted(key=...)` computes every
key before sorting, so a missing date surfaces before any row is built.) -/
def datedOf : List RawResult → Except MalformedRecord (List (ℤ × RawResult))
  | [] => .ok []
  | r :: rs =>
    match r.date with
    | none => .error .missingDate
    | some d =>
      match datedOf rs with
      | .error e => .error e
      | .ok l => .ok ((d, r) :: l)

/-- Comparison key of `sorted(..., key=lambda x: x['date'])`: order the
date-record pairs by their date component. -/
def dateLE (a b : ℤ × RawResult) : Prop := a.1 ≤ b.1

instance : DecidableRel dateLE := fun a b => inferInstanceAs (Decidable (a.1 ≤ b.1))

instance : IsTotal (ℤ × RawResult) dateLE := ⟨fun a b => Int.le_total a.1 b.1⟩

instance : IsTrans (ℤ × RawResult) dateLE := ⟨fun _ _ _ h₁ h₂ => le_trans h₁ h₂⟩

/-- Embeds `sorted(bench['latest_results'], key=lambda x: x['date'])`: a
stable sort by timestamp. -/
def sortByDate (l : List (ℤ × RawResult)) : List (ℤ × RawResult) :=
  List.insertionSort dateLE l

/-- The dataframe row built from one record: the benchmark name, the
timestamp, the enumeration index, and the seven metric columns. -/
def mkRow (nm : String) (d : ℤ) (i : ℕ) (v : Values) : Row :=
  { name := nm, date := d, norm_date := i,
    min := v.min, max := v.max, p99 := v.p99, p99_9 := v.p99_9,
    avg := v.avg, rps := v.rps, total := v.total }

/-- Builds the rows of one benchmark from its date-sorted records, assigning
`norm_date = i, i+1, ...` by `enumerate`, and failing at the first record
missing the metric mapping. -/
def rowsOf (nm : String) : List (ℤ × RawResult) → ℕ → Except MalformedRecord (List Row)
  | [], _ => .ok []
  | (d, r) :: rs, i =>
    match r.values with
    | none => .error .missingValues
    | some v =>
      match rowsOf nm rs (i + 1) with
      | .error e => .error e
      | .ok l => .ok (mkRow nm d i v :: l)

/-- The series of one benchmark: sort its records by date (checking the
dates exist), then enumerate from 0. -/
def buildRows (b : RawBench) : Except MalformedRecord (List Row) :=
  match datedOf b.latest_results with
  | .error e => .error e
  | .ok dated => rowsOf b.name (sortByDate dated) 0

/-- Embeds `create_dataframe`: the concatenation of every benchmark's rows.
The Python list comprehension materializes all rows inside one
`pd.DataFrame.from_records` call, so the first missing field aborts the
whole construction with an exception; accordingly the first error wins and
no partial dataframe is produced. -/
def create_dataframe : List RawBench → Except MalformedRecord (List Row)
  | [] => .ok []
  | b :: bs =>
    match buildRows b with
    | .error e => .error e
    | .ok rows =>
      match create_dataframe bs with
      | .error e => .error e
      | .ok rest => .ok (rows ++ rest)

/-! ## Orchestration entry point `check_last_run` -/

/-- Embeds `df[df['name'] == benchmark][parameter].values`. -/
def benchColumn (df : List Row) (benchmark : String) (parameter : Metric) : List ℚ :=
  (df.filter fun r => r.name == benchmark).map fun r => r.metric parameter

/-- Embeds `check_last_run`: fit a fresh `ModifiedZScore` on `y[:-1]`, then
`test` the last value `y[-1]` at the default threshold.  On an empty column
the Python indexing `y[-1]` raises, modelled as `none`. -/
def check_last_run (df : List Row) (benchmark : String) (parameter : Metric) : Option Bool :=
  let y := benchColumn df benchmark parameter
  let scorer := ModifiedZScore.fit y.dropLast
  match y.getLast? with
  | none => none
  | some last => some (scorer.test last mzsThresholdDefault)

/-! ## Helper lemmas about the scorers -/

/-- The sorted image of a constant list is that list. -/
theorem insertionSort_replicate (n : ℕ) (c : ℚ) :
    List.insertionSort (fun a b => a ≤ b) (List.replicate n c) = List.replicate n c :=
  List.Sorted.insertionSort_eq (List.pairwise_replicate.mpr (Or.inr le_rfl))

/-- Median of a nonempty constant sample (`np.median`) is the constant. -/
theorem npMedian_replicate {n : ℕ} (hn : 0 < n) (c : ℚ) :
    npMedian (List.replicate n c) = c := by
  unfold npMedian
  rw [insertionSort_replicate]
  simp only [List.length_replicate]
  have h2 : n / 2 < n := Nat.div_lt_self hn (by omega)
  have h1 : n / 2 - 1 < n := by omega
  have hne : n ≠ 0 := by omega
  by_cases hodd : n % 2 = 1
  · simp [hne, hodd, List.getD_eq_getElem?_getD, List.getElem?_replicate, h2]
  · simp [hne, hodd, List.getD_eq_getElem?_getD, List.getElem?_replicate, h1, h2,
      add_self_div_two]

/-- Fitting the median-based scorer on a nonempty constant sample stores a
zero scale (`_mda = 0`). -/
theorem mzs_fit_replicate_mda {n : ℕ} (hn : 0 < n) (c : ℚ) :
    (ModifiedZScore.fit (List.replicate n c)).mda = 0 := by
  unfold ModifiedZScore.fit
  simp only [npMedian_replicate hn]
  have : (List.replicate n c).map (fun v => |v - c|) = List.replicate n 0 := by
    simp [List.map_replicate]
  rw [this, npMedian_replicate hn]

/-- Closed form of `check_last_run`: the verdict is `|last| > 3.5` applied
to the last value of the column (the fitted scorer state is ignored by
`test`). -/
theorem check_last_run_eq (df : List Row) (b : String) (p : Metric) :
    check_last_run df b p
      = (benchColumn df b p).getLast?.map fun last => decide (|last| > mzsThresholdDefault) := by
  unfold check_last_run
  cases h : (benchColumn df b p).getLast? <;>
    simp [h, ModifiedZScore.test]

/-! ## Concrete inputs used by the claims about the scorers -/

/-- The reference sample of the spec's own recency-check example. -/
def c1Ref : List ℚ := [10, 11, 9, 10, 12, 9, 11, 10]

/-- A row whose every metric carries the same value. -/
def simpleRow (nm : String) (d : ℤ) (n : ℕ) (t : ℚ) : Row :=
  { name := nm, date := d, norm_date := n,
    min := t, max := t, p99 := t, p99_9 := t, avg := t, rps := t, total := t }

/-- Series whose metric values are `c1Ref` followed by a last value `10`. -/
def c1Df : List Row :=
  [simpleRow ("b") 1 0 10, simpleRow ("b") 2 1 11, simpleRow ("b") 3 2 9,
   simpleRow ("b") 4 3 10, simpleRow ("b") 5 4 12, simpleRow ("b") 6 5 9,
   simpleRow ("b") 7 6 11, simpleRow ("b") 8 7 10, simpleRow ("b") 9 8 10]

/-- Series with constant reference values `[10,10,10,10,10]` and last value
`50` (the spec's degenerate-scale example). -/
def c2Df : List Row :=
  [simpleRow ("b") 1 0 10, simpleRow ("b") 2 1 10, simpleRow ("b") 3 2 10,
   simpleRow ("b") 4 3 10, simpleRow ("b") 5 4 10, simpleRow ("b") 6 5 50]

/-! ## Claims C1, C2, C6, C10 -/

/-- Median/MAD fit on the spec's reference sample `[10,11,9,10,12,9,11,10]`:
location (median) `10`, scale (MAD) `1`. -/
theorem mzs_fit_c1Ref : ModifiedZScore.fit c1Ref = ⟨10, 1⟩ := by
  norm_num [ModifiedZScore.fit, npMedian, c1Ref, List.insertionSort, List.orderedInsert,
    List.getD_cons_zero, List.getD_cons_succ]

/-- Claim C1 (code bug, divergence witness): `test` compares the raw value,
not the transformed score, against the threshold.  The median-based scorer
fitted on the spec's own reference sample `[10,11,9,10,12,9,11,10]` and
tested at the value `10` answers `true` (since `|10| > 3.5`) although the
modified Z-score of `10` is `0`, which does not exceed `3.5`; hence
`check_last_run` on the series with last value `10` answers `some true`
where the claimed contract `|transform(last)| > 3.5` answers `false`.  The
mean-based variant diverges the same way at value `3` after fitting on
`[0, 2]`. -/
theorem C1_test_ignores_transform :
    ModifiedZScore.test (ModifiedZScore.fit c1Ref) 10 mzsThresholdDefault = true ∧
    |ModifiedZScore.transform (ModifiedZScore.fit c1Ref) 10| ≤ mzsThresholdDefault ∧
    check_last_run c1Df ("b") Metric.total = some true ∧
    ZScore.test (ZScore.fit [0, 2]) 3 zThresholdDefault = true ∧
    ¬ |ZScore.transform (ZScore.fit [0, 2]) 3| > ((zThresholdDefault : ℚ) : ℝ) := by
  refine ⟨?_, ?_, ?_, ?_, ?_⟩
  · norm_num [ModifiedZScore.test, mzsThresholdDefault]
  · rw [mzs_fit_c1Ref]
    norm_num [ModifiedZScore.transform, mzsK, mzsThresholdDefault]
  · rw [check_last_run_eq]
    have hb : benchColumn c1Df ("b") Metric.total = [10, 11, 9, 10, 12, 9, 11, 10, 10] := by
      decide
    have hl : ([10, 11, 9, 10, 12, 9, 11, 10, 10] : List ℚ).getLast? = some 10 := by decide
    rw [hb, hl]
    norm_num [mzsThresholdDefault]
  · norm_num [ZScore.test, zThresholdDefault]
  · have hv : npVar [(0 : ℚ), 2] = 1 := by norm_num [npVar, npMean]
    have ht : ZScore.transform (ZScore.fit [0, 2]) 3 = 2 := by
      norm_num [ZScore.transform, ZScore.fit, npStd, npMean, hv]
    rw [ht]
    norm_num [zThresholdDefault]

/-- Claim C2 (counterexample): on the degenerate series with constant
reference `[10,10,10,10,10]` and last value `50`, `check_last_run` reports
`outlier = true`, not the claimed "not an outlier". -/
theorem C2_degenerate_reports_outlier :
    check_last_run c2Df ("b") Metric.total = some true := by
  rw [check_last_run_eq]
  have hb : benchColumn c2Df ("b") Metric.total = [10, 10, 10, 10, 10, 50] := by decide
  have hl : ([10, 10, 10, 10, 10, 50] : List ℚ).getLast? = some 50 := by decide
  rw [hb, hl]
  norm_num [mzsThresholdDefault]

/-- Claim C2 (amended): fitting the median-based scorer on any nonempty
constant reference sample stores scale `_mda = 0` exactly, and the
subsequent `test` verdict is `|value| > threshold` — no division by zero
occurs (and no NaN/Inf and no crash) because `test` never calls
`transform`; but there is no "report not-an-outlier" degenerate-scale
policy, so the value `50` against constant reference `10` is reported as an
outlier. -/
theorem C2_constant_sample_verdict (c : ℚ) (n : ℕ) (hn : 0 < n) (v threshold : ℚ) :
    (ModifiedZScore.fit (List.replicate n c)).mda = 0 ∧
    ModifiedZScore.test (ModifiedZScore.fit (List.replicate n c)) v threshold
      = decide (|v| > threshold) :=
  ⟨mzs_fit_replicate_mda hn c, rfl⟩

/-- Witness for the amended claim C2 at the spec's concrete input: constant
reference `10` five times, tested value `50`, default threshold `3.5`. -/
theorem C2_constant_sample_verdict_witness :
    (0 : ℕ) < 5 ∧
    ((ModifiedZScore.fit (List.replicate 5 (10 : ℚ))).mda = 0 ∧
     ModifiedZScore.test (ModifiedZScore.fit (List.replicate 5 (10 : ℚ))) 50 mzsThresholdDefault
       = decide (|(50 : ℚ)| > mzsThresholdDefault)) :=
  ⟨by decide, C2_constant_sample_verdict 10 5 (by decide) 50 mzsThresholdDefault⟩

/-- Claim C6 (confirmed): the `check_last_run` verdict depends only on the
last value of the chosen metric column — any two dataframes and benchmark
names whose selected columns end in the same value get the same verdict,
whatever the reference values are.  (This holds precisely because `test`
ignores the fitted state.) -/
theorem C6_verdict_depends_only_on_last (df₁ df₂ : List Row) (b₁ b₂ : String) (p : Metric)
    (v : ℚ)
    (h₁ : (benchColumn df₁ b₁ p).getLast? = some v)
    (h₂ : (benchColumn df₂ b₂ p).getLast? = some v) :
    check_last_run df₁ b₁ p = check_last_run df₂ b₂ p := by
  rw [check_last_run_eq, check_last_run_eq, h₁, h₂]

/-- Series with reference values `[1, 2]` and last value `50`. -/
def c6DfA : List Row :=
  [simpleRow ("a") 1 0 1, simpleRow ("a") 2 1 2, simpleRow ("a") 3 2 50]

/-- Series with entirely different reference values `[100, 200, 7]` and the
same last value `50`. -/
def c6DfB : List Row :=
  [simpleRow ("b") 1 0 100, simpleRow ("b") 2 1 200, simpleRow ("b") 3 2 7,
   simpleRow ("b") 4 3 50]

/-- Witness for claim C6: two series with different references but the same
last value `50` receive the same verdict. -/
theorem C6_verdict_depends_only_on_last_witness :
    (benchColumn c6DfA ("a") Metric.rps).getLast? = some 50 ∧
    (benchColumn c6DfB ("b") Metric.rps).getLast? = some 50 ∧
    check_last_run c6DfA ("a") Metric.rps = check_last_run c6DfB ("b") Metric.rps :=
  ⟨by decide, by decide,
   C6_verdict_depends_only_on_last c6DfA c6DfB ("a") ("b") Metric.rps 50
     (by decide) (by decide)⟩

/-- Claim C10 (confirmed): `transform` on a freshly constructed scorer is
total and explicit — the mean-based scorer is the identity (initial
location `0`, scale `1`), and the median-based scorer multiplies by the
constant `0.6745` (initial median `0`, MAD `1`). -/
theorem C10_fresh_transform (v : ℚ) :
    ZScore.transform ZScore.init v = (v : ℝ) ∧
    ModifiedZScore.transform ModifiedZScore.init v = mzsK * v := by
  constructor
  · simp [ZScore.transform, ZScore.init]
  · simp [ModifiedZScore.transform, ModifiedZScore.init]

/-! ## Structural-break detection (`chow_test`) -/

/-- Embeds `sm.OLS(y, x).fit()` for the one-dimensional regressor the source
passes (no `sm.add_constant`): the least-squares slope of the through-origin
model `y = beta * x`, namely `sum x*y / sum x*x`.  When `sum x*x = 0` the
pseudo-inverse slope is `0`, which rational division by zero also yields. -/
def olsSlope (x y : List ℚ) : ℚ :=
  (List.zipWith (· * ·) x y).sum / (List.zipWith (· * ·) x x).sum

/-- The residual sum of squares `res.ssr` of that regression. -/
def olsSSR (x y : List ℚ) : ℚ :=
  (List.zipWith (fun yi xi => (yi - olsSlope x y * xi) ^ 2) y x).sum

/-- Default `alpha=0.000005` of `chow_test`. -/
def alphaDefault : ℚ := 5 / 1000000

/-- Default `k=2` of `chow_test`. -/
def kDefault : ℕ := 2

/-- The Chow statistic computed inside `chow_test`: `dfn = k`,
`dfd = len(x) - 2*k`, the three regressions over the whole series,
`[:day]`, and `[day+1:]`, and
`numerator / denominator` as in the source. -/
def chowStat (x y : List ℚ) (day : ℕ) (k : ℕ) : ℚ :=
  let dfn : ℚ := k
  let dfd : ℚ := (((x.length : ℤ) - 2 * k : ℤ) : ℚ)
  let ssr_total := olsSSR x y
  let ssr_before := olsSSR (x.take day) (y.take day)
  let ssr_after := olsSSR (x.drop (day + 1)) (y.drop (day + 1))
  let numerator := (ssr_total - (ssr_before + ssr_after)) / dfn
  let denominator := (ssr_before + ssr_after) / dfd
  numerator / denominator

/-- Embeds `chow_test`: returns `chow > f.ppf(q=1-alpha, dfn=k, dfd=len(x)-2*k)`,
with the external scipy quantile function passed as the parameter `ppf`.
There is no degrees-of-freedom validation and no failure path in the
source: the function always computes a Boolean verdict. -/
def chow_test (ppf : ℚ → ℕ → ℤ → ℚ) (x y : List ℚ) (day : ℕ) (alpha : ℚ) (k : ℕ) : Bool :=
  decide (chowStat x y day k > ppf (1 - alpha) k ((x.length : ℤ) - 2 * k))

/-- Spec-side regression summary: residual sum of squares of the
through-origin least-squares fit over a list of
(regressor, response) observations. -/
def ssrPts (pts : List (ℚ × ℚ)) : ℚ :=
  let beta := (pts.map fun q => q.1 * q.2).sum / (pts.map fun q => q.1 * q.1).sum
  (pts.map fun q => (q.2 - beta * q.1) ^ 2).sum

/-- Spec-side selection of the observations whose position satisfies `p`. -/
def selectIdx {α : Type} (l : List α) (p : ℕ → Bool) : List α :=
  (l.enum.filter fun q => p q.1).map Prod.snd

/-- Spec-side Chow F statistic, phrased the way the spec states it:
`SSR_before` over index range `[0, pivot)`, `SSR_after` over `(pivot, end]`
(the pivot observation excluded from both halves), and
`F = [(SSR_total - (SSR_before+SSR_after))/k] / [(SSR_before+SSR_after)/(N-2k)]`
with `N` the total observation count. -/
def specChowF (x y : List ℚ) (pivot : ℕ) (k : ℕ) : ℚ :=
  let pts := x.zip y
  let N : ℤ := pts.length
  let ssrT := ssrPts pts
  let ssrB := ssrPts (selectIdx pts fun i => decide (i < pivot))
  let ssrA := ssrPts (selectIdx pts fun i => decide (pivot < i))
  ((ssrT - (ssrB + ssrA)) / k) / ((ssrB + ssrA) / ((N - 2 * k : ℤ) : ℚ))

/-- Indices of an enumeration starting at `s` never fall below `m ≤ s`. -/
theorem enumFrom_filter_lt_nil {α : Type} (l : List α) :
    ∀ (s m : ℕ), m ≤ s → (l.enumFrom s).filter (fun q => decide (q.1 < m)) = [] := by
  induction l with
  | nil => intro s m _; rfl
  | cons a xs ih =>
    intro s m h
    simp only [List.enumFrom_cons, List.filter_cons]
    have hc : ¬ ((s, a).1 < m) := by
      show ¬ s < m
      omega
    simp [hc, ih (s + 1) m (by omega)]

/-- Indices of an enumeration starting at `s` all exceed `m < s`. -/
theorem enumFrom_filter_gt_all {α : Type} (l : List α) :
    ∀ (s m : ℕ), m < s → (l.enumFrom s).filter (fun q => decide (m < q.1)) = l.enumFrom s := by
  induction l with
  | nil => intro s m _; rfl
  | cons a xs ih =>
    intro s m h
    simp only [List.enumFrom_cons, List.filter_cons]
    have hc : m < (s, a).1 := by
      show m < s
      omega
    simp [hc, ih (s + 1) m (by omega)]

/-- Keeping the positions below `s + n` of an enumeration starting at `s`
is taking the first `n` elements. -/
theorem enumFrom_filter_lt_take {α : Type} (l : List α) :
    ∀ (s n : ℕ),
      ((l.enumFrom s).filter fun q => decide (q.1 < s + n)).map Prod.snd = l.take n := by
  induction l with
  | nil => intro s n; simp
  | cons a xs ih =>
    intro s n
    cases n with
    | zero =>
      rw [Nat.add_zero, enumFrom_filter_lt_nil (a :: xs) s s le_rfl]
      simp
    | succ k =>
      rw [show s + (k + 1) = (s + 1) + k by omega]
      simp only [List.enumFrom_cons, List.filter_cons]
      have hc : (s, a).1 < (s + 1) + k := by
        show s < (s + 1) + k
        omega
      rw [if_pos (decide_eq_true hc), List.map_cons, ih (s + 1) k]
      rfl

/-- Keeping the positions above `s + n` of an enumeration starting at `s`
is dropping the first `n + 1` elements. -/
theorem enumFrom_filter_gt_drop {α : Type} (l : List α) :
    ∀ (s n : ℕ),
      ((l.enumFrom s).filter fun q => decide (s + n < q.1)).map Prod.snd = l.drop (n + 1) := by
  induction l with
  | nil => intro s n; simp
  | cons a xs ih =>
    intro s n
    simp only [List.enumFrom_cons, List.filter_cons, List.drop_succ_cons]
    have hc : ¬ (s + n < (s, a).1) := by
      show ¬ s + n < s
      omega
    rw [if_neg fun hcontra => hc (of_decide_eq_true hcontra)]
    cases n with
    | zero =>
      rw [Nat.add_zero, enumFrom_filter_gt_all xs (s + 1) s (by omega),
        List.enumFrom_map_snd, List.drop_zero]
    | succ k =>
      rw [show s + (k + 1) = (s + 1) + k by omega]
      exact ih (s + 1) k

/-- The spec's index range `[0, pivot)` is the slice `[:pivot]`. -/
theorem selectIdx_lt {α : Type} (l : List α) (n : ℕ) :
    selectIdx l (fun i => decide (i < n)) = l.take n := by
  have h := enumFrom_filter_lt_take l 0 n
  simpa [selectIdx, List.enum] using h

/-- The spec's index range `(pivot, end]` is the slice `[pivot+1:]`. -/
theorem selectIdx_gt {α : Type} (l : List α) (n : ℕ) :
    selectIdx l (fun i => decide (n < i)) = l.drop (n + 1) := by
  have h := enumFrom_filter_gt_drop l 0 n
  simpa [selectIdx, List.enum] using h

/-- Rewriting `zipWith` as a map over the zip of its arguments. -/
theorem zipWith_eq_map_zip {α β γ : Type} (f : α → β → γ) :
    ∀ (x : List α) (y : List β), List.zipWith f x y = (x.zip y).map fun p => f p.1 p.2 := by
  intro x
  induction x with
  | nil => intro y; rfl
  | cons a xs ih =>
    intro y
    cases y with
    | nil => rfl
    | cons b ys => simp [ih ys]

/-- Mapping a first-component function over a zip of equally long lists. -/
theorem map_fst_zip_of_length {α β γ : Type} (g : α → γ) :
    ∀ (x : List α) (y : List β), x.length = y.length →
      ((x.zip y).map fun p => g p.1) = x.map g := by
  intro x
  induction x with
  | nil => intro y _; rfl
  | cons a xs ih =>
    intro y h
    cases y with
    | nil => simp at h
    | cons b ys =>
      simp only [List.zip_cons_cons, List.map_cons]
      rw [ih ys (by simpa using h)]

/-- The spec-side regression over zipped observations agrees with the
source-side regression over the two coordinate lists. -/
theorem ssrPts_zip (x y : List ℚ) (h : x.length = y.length) :
    ssrPts (x.zip y) = olsSSR x y := by
  unfold ssrPts olsSSR olsSlope
  have hnum : ((x.zip y).map fun q => q.1 * q.2) = List.zipWith (· * ·) x y :=
    (zipWith_eq_map_zip (· * ·) x y).symm
  have hden : ((x.zip y).map fun q => q.1 * q.1) = List.zipWith (· * ·) x x := by
    rw [map_fst_zip_of_length (fun a => a * a) x y h, List.zipWith_same]
  have hres : ∀ beta : ℚ,
      ((x.zip y).map fun q => (q.2 - beta * q.1) ^ 2)
        = List.zipWith (fun yi xi => (yi - beta * xi) ^ 2) y x := by
    intro beta
    rw [zipWith_eq_map_zip (fun yi xi => (yi - beta * xi) ^ 2) y x, ← List.zip_swap x y,
      List.map_map]
    rfl
  simp only [hnum, hden, hres]

/-- The Chow statistic of the source equals the spec-side F formula. -/
theorem chowStat_eq_specChowF (x y : List ℚ) (day k : ℕ) (h : x.length = y.length) :
    chowStat x y day k = specChowF x y day k := by
  unfold chowStat specChowF
  have htake : (x.zip y).take day = (x.take day).zip (y.take day) := by
    simp [List.zip_eq_zipWith, List.take_zipWith]
  have hdrop : (x.zip y).drop (day + 1) = (x.drop (day + 1)).zip (y.drop (day + 1)) := by
    simp [List.zip_eq_zipWith, List.drop_zipWith]
  have h1 : (x.take day).length = (y.take day).length := by simp [h]
  have h2 : (x.drop (day + 1)).length = (y.drop (day + 1)).length := by simp [h]
  have hlen : (x.zip y).length = x.length := by simp [h]
  simp only [selectIdx_lt, selectIdx_gt, htake, hdrop, ssrPts_zip x y h,
    ssrPts_zip _ _ h1, ssrPts_zip _ _ h2, hlen]

/-! ## Claims C3 and C4 -/

/-- A concrete stand-in for the external quantile function, used only to
instantiate `ppf` at concrete inputs. -/
def ppfZero : ℚ → ℕ → ℤ → ℚ := fun _ _ _ => 0

/-- A five-point regressor `[0, 1, 2, 3, 4]`. -/
def c3X : List ℚ := [0, 1, 2, 3, 4]

/-- A five-point response. -/
def c3Y : List ℚ := [0, 1, 2, 3, 5]

/-- Claim C4 (confirmed): `chow_test` declares a break exactly when the
spec's F statistic — `SSR_total` from the whole series, `SSR_before` over
indices `[0, pivot)`, `SSR_after` over `(pivot, end]` with the pivot
excluded from both halves, combined as
`F = [(SSR_total - (SSR_before+SSR_after))/k] / [(SSR_before+SSR_after)/(N-2k)]`
— exceeds the `(1-alpha)` quantile with `(k, N-2k)` degrees of freedom,
and the defaults are `alpha = 0.000005` and `k = 2`. -/
theorem C4_chow_matches_spec (ppf : ℚ → ℕ → ℤ → ℚ) (x y : List ℚ) (day : ℕ) (alpha : ℚ)
    (k : ℕ) (h : x.length = y.length) :
    chow_test ppf x y day alpha k
      = decide (specChowF x y day k > ppf (1 - alpha) k ((x.length : ℤ) - 2 * k)) ∧
    alphaDefault = 5 / 1000000 ∧ kDefault = 2 := by
  refine ⟨?_, rfl, rfl⟩
  unfold chow_test
  rw [chowStat_eq_specChowF x y day k h]

/-- Witness for claim C4 at a concrete series and pivot. -/
theorem C4_chow_matches_spec_witness :
    ([0, 1, 2] : List ℚ).length = ([5, 6, 7] : List ℚ).length ∧
    (chow_test ppfZero [0, 1, 2] [5, 6, 7] 1 (1 / 2) 2
        = decide (specChowF [0, 1, 2] [5, 6, 7] 1 2
            > ppfZero (1 - 1 / 2) 2 ((([0, 1, 2] : List ℚ).length : ℤ) - 2 * 2)) ∧
     alphaDefault = 5 / 1000000 ∧ kDefault = 2) :=
  ⟨rfl, C4_chow_matches_spec ppfZero [0, 1, 2] [5, 6, 7] 1 (1 / 2) 2 rfl⟩

/-- Claim C3 (counterexample): on a series of exactly 5 points with the
default `k = 2`, `chow_test` does not fail — it computes a Boolean verdict
(here `true` against the stand-in quantile `0`). -/
theorem C3_five_points_compute_verdict :
    chow_test ppfZero c3X c3Y 2 alphaDefault kDefault = true := by
  norm_num [chow_test, chowStat, olsSSR, olsSlope, c3X, c3Y, kDefault, ppfZero]

/-- Claim C3 (amended): `chow_test` contains no `InsufficientData`
rejection at all.  On a series of exactly 5 points with the default
`k = 2`, the denominator degrees of freedom is `5 - 4 = 1`, which is
positive, and the function plainly computes the F comparison for any
quantile function, significance level and pivot. -/
theorem C3_no_insufficient_data_path (ppf : ℚ → ℕ → ℤ → ℚ) (alpha : ℚ) (day : ℕ) :
    ((c3X.length : ℤ) - 2 * (kDefault : ℤ) = 1) ∧
    chow_test ppf c3X c3Y day alpha kDefault
      = decide (chowStat c3X c3Y day kDefault > ppf (1 - alpha) kDefault 1) := by
  constructor
  · decide
  · unfold chow_test
    norm_num [c3X, kDefault]

/-! ## Success and failure of series construction -/

/-- Date extraction succeeds exactly when every record carries a date. -/
theorem datedOf_ok_iff (l : List RawResult) :
    (∃ d, datedOf l = .ok d) ↔ ∀ r ∈ l, r.date ≠ none := by
  induction l with
  | nil => simp [datedOf]
  | cons r rs ih =>
    constructor
    · rintro ⟨d, hd⟩ r₂ hr₂
      cases hdate : r.date with
      | none => simp [datedOf, hdate] at hd
      | some v =>
        cases hrec : datedOf rs with
        | error e => simp [datedOf, hdate, hrec] at hd
        | ok d₂ =>
          rcases List.mem_cons.mp hr₂ with h | h
          · subst h; simp [hdate]
          · exact ih.mp ⟨d₂, hrec⟩ r₂ h
    · intro hall
      cases hd : r.date with
      | none => exact absurd hd (hall r (by simp))
      | some v =>
        obtain ⟨d₂, hd₂⟩ := ih.mpr fun r₂ hr₂ => hall r₂ (by simp [hr₂])
        exact ⟨(v, r) :: d₂, by simp [datedOf, hd, hd₂]⟩

/-- In the success case, date extraction pairs each record with its date,
in the original order. -/
theorem datedOf_ok_snd : ∀ {l : List RawResult} {d}, datedOf l = .ok d → d.map Prod.snd = l := by
  intro l
  induction l with
  | nil =>
    intro d hd
    simp only [datedOf, Except.ok.injEq] at hd
    subst hd
    rfl
  | cons r rs ih =>
    intro d hd
    cases hdate : r.date with
    | none => simp [datedOf, hdate] at hd
    | some v =>
      cases hrec : datedOf rs with
      | error e => simp [datedOf, hdate, hrec] at hd
      | ok d₂ =>
        simp only [datedOf, hdate, hrec, Except.ok.injEq] at hd
        subst hd
        simp [ih hrec]

/-- Row construction succeeds exactly when every record carries its metric
mapping. -/
theorem rowsOf_ok_iff (nm : String) :
    ∀ (l : List (ℤ × RawResult)) (i : ℕ),
      (∃ rows, rowsOf nm l i = .ok rows) ↔ ∀ q ∈ l, q.2.values ≠ none := by
  intro l
  induction l with
  | nil => intro i; simp [rowsOf]
  | cons q qs ih =>
    intro i
    rcases q with ⟨d, r⟩
    constructor
    · rintro ⟨rows, hrows⟩ q₂ hq₂
      cases hv : r.values with
      | none => simp [rowsOf, hv] at hrows
      | some v =>
        cases hrec : rowsOf nm qs (i + 1) with
        | error e => simp [rowsOf, hv, hrec] at hrows
        | ok l₂ =>
          rcases List.mem_cons.mp hq₂ with h | h
          · subst h; simp [hv]
          · exact (ih (i + 1)).mp ⟨l₂, hrec⟩ q₂ h
    · intro hall
      cases hv : r.values with
      | none => exact absurd hv (hall (d, r) (by simp))
      | some v =>
        obtain ⟨l₂, h₂⟩ := (ih (i + 1)).mpr fun q₂ hq₂ => hall q₂ (by simp [hq₂])
        refine ⟨mkRow nm d i v :: l₂, ?_⟩
        unfold rowsOf
        rw [hv, h₂]

/-- One benchmark's series builds exactly when every record carries both
required fields. -/
theorem buildRows_ok_iff (b : RawBench) :
    (∃ rows, buildRows b = .ok rows) ↔
      ∀ r ∈ b.latest_results, r.date ≠ none ∧ r.values ≠ none := by
  constructor
  · rintro ⟨rows, hrows⟩ r hr
    unfold buildRows at hrows
    cases hd : datedOf b.latest_results with
    | error e => rw [hd] at hrows; cases hrows
    | ok dated =>
      rw [hd] at hrows
      refine ⟨(datedOf_ok_iff b.latest_results).mp ⟨dated, hd⟩ r hr, ?_⟩
      have hsnd := datedOf_ok_snd hd
      have hmem : r ∈ dated.map Prod.snd := by rw [hsnd]; exact hr
      obtain ⟨q, hq, hq₂⟩ := List.mem_map.mp hmem
      have hqs : q ∈ sortByDate dated := by
        unfold sortByDate
        rw [List.mem_insertionSort]
        exact hq
      have hval := (rowsOf_ok_iff b.name (sortByDate dated) 0).mp ⟨rows, hrows⟩ q hqs
      rw [hq₂] at hval
      exact hval
  · intro hall
    obtain ⟨dated, hd⟩ := (datedOf_ok_iff b.latest_results).mpr fun r hr => (hall r hr).1
    have hvals : ∀ q ∈ sortByDate dated, q.2.values ≠ none := by
      intro q hq
      have hq₂ : q ∈ dated := by
        unfold sortByDate at hq
        rw [List.mem_insertionSort] at hq
        exact hq
      have hmem : q.2 ∈ dated.map Prod.snd := List.mem_map.mpr ⟨q, hq₂, rfl⟩
      rw [datedOf_ok_snd hd] at hmem
      exact (hall q.2 hmem).2
    obtain ⟨rows, hrows⟩ := (rowsOf_ok_iff b.name (sortByDate dated) 0).mpr hvals
    exact ⟨rows, by unfold buildRows; rw [hd]; exact hrows⟩

/-- Claim C5 (amended): `create_dataframe` succeeds — producing any rows at
all — exactly when every record of every benchmark carries both the
timestamp field and the metric mapping.  A record missing either field
surfaces a `MalformedRecord` failure to the caller, but the failure aborts
the whole construction: the malformed record is excluded only because no
series is built at all, the remaining well-formed records included. -/
theorem C5_construction_ok_iff_well_formed (data : List RawBench) :
    (∃ df, create_dataframe data = .ok df) ↔
      ∀ b ∈ data, ∀ r ∈ b.latest_results, r.date ≠ none ∧ r.values ≠ none := by
  induction data with
  | nil => simp [create_dataframe]
  | cons b bs ih =>
    constructor
    · rintro ⟨df, hdf⟩ b₂ hb₂
      cases hbr : buildRows b with
      | error e => simp [create_dataframe, hbr] at hdf
      | ok rows =>
        cases hrec : create_dataframe bs with
        | error e => simp [create_dataframe, hbr, hrec] at hdf
        | ok rest =>
          rcases List.mem_cons.mp hb₂ with h | h
          · subst h; exact (buildRows_ok_iff b₂).mp ⟨rows, hbr⟩
          · exact ih.mp ⟨rest, hrec⟩ b₂ h
    · intro hall
      obtain ⟨rows, hrows⟩ := (buildRows_ok_iff b).mpr (hall b (by simp))
      obtain ⟨rest, hrest⟩ := ih.mpr fun b₂ hb₂ => hall b₂ (by simp [hb₂])
      exact ⟨rows ++ rest, by simp [create_dataframe, hrows, hrest]⟩

/-- A constant metric mapping. -/
def constValues (q : ℚ) : Values := ⟨q, q, q, q, q, q, q⟩

/-- A benchmark whose first record misses the metric mapping while the
second record is well-formed. -/
def c5Bench : RawBench :=
  { name := "b",
    latest_results :=
      [ { date := some 1, values := none },
        { date := some 2, values := some (constValues 4) } ] }

/-- Claim C5 (counterexample): a single malformed record makes
`create_dataframe` fail outright — the construction of the remaining
well-formed record is aborted and no series is produced, contradicting the
claimed skip-and-continue behaviour. -/
theorem C5_malformed_aborts_construction :
    create_dataframe [c5Bench] = .error MalformedRecord.missingValues := rfl

/-! ## Claim C7: the two transform formulas -/

/-- Claim C7 (confirmed): after `fit` on a reference sample, the mean-based
transform is `(value - arithmetic mean) / population standard deviation`
(`npMean` is `sum/length`; `npStd` is the square root of the mean squared
deviation), and the median-based transform is
`0.6745 * (value - median) / (median of absolute deviations from the median)`.
The non-degeneracy hypotheses mirror the claim; the equalities are exact. -/
theorem C7_transform_formulas (s : List ℚ)
    (hA : npStd s ≠ 0) (hB : npMedian (s.map fun v => |v - npMedian s|) ≠ 0) :
    (∀ v : ℚ, ZScore.transform (ZScore.fit s) v
        = ((v : ℝ) - (npMean s : ℝ)) / Real.sqrt ((npVar s : ℚ) : ℝ)) ∧
    (∀ v : ℚ, ModifiedZScore.transform (ModifiedZScore.fit s) v
        = (6745 / 10000) * (v - npMedian s) / npMedian (s.map fun u => |u - npMedian s|)) := by
  constructor
  · intro v
    rfl
  · intro v
    rfl

/-- Witness for claim C7 on the sample `[0, 2]` (mean 1, standard deviation
1, median 1, MAD 1) at the value 3. -/
theorem C7_transform_formulas_witness :
    npStd [0, 2] ≠ 0 ∧
    npMedian (([0, 2] : List ℚ).map fun v => |v - npMedian [0, 2]|) ≠ 0 ∧
    ZScore.transform (ZScore.fit [0, 2]) 3
      = ((3 : ℝ) - (npMean [0, 2] : ℝ)) / Real.sqrt ((npVar [0, 2] : ℚ) : ℝ) ∧
    ModifiedZScore.transform (ModifiedZScore.fit [0, 2]) 3
      = (6745 / 10000) * (3 - npMedian [0, 2])
          / npMedian (([0, 2] : List ℚ).map fun u => |u - npMedian [0, 2]|) := by
  have hv : npVar [(0 : ℚ), 2] = 1 := by norm_num [npVar, npMean]
  have h1 : npStd [0, 2] ≠ 0 := by
    unfold npStd
    rw [hv]
    norm_num [Real.sqrt_one]
  have h2 : npMedian (([0, 2] : List ℚ).map fun v => |v - npMedian [0, 2]|) ≠ 0 := by
    norm_num [npMedian, List.insertionSort, List.orderedInsert, List.getD_cons_zero,
      List.getD_cons_succ]
  exact ⟨h1, h2, (C7_transform_formulas [0, 2] h1 h2).1 3,
    (C7_transform_formulas [0, 2] h1 h2).2 3⟩

/-! ## Claim C8: enumeration after a stable sort -/

/-- In the success case, row construction assigns consecutive `norm_date`
indices starting at `i` and copies the dates in order. -/
theorem rowsOf_ok_fields (nm : String) :
    ∀ (l : List (ℤ × RawResult)) (i : ℕ) (rows : List Row),
      rowsOf nm l i = .ok rows →
      rows.map Row.norm_date = List.range' i l.length ∧
      rows.map Row.date = l.map Prod.fst := by
  intro l
  induction l with
  | nil =>
    intro i rows h
    simp only [rowsOf, Except.ok.injEq] at h
    subst h
    simp
  | cons q qs ih =>
    intro i rows h
    rcases q with ⟨d, r⟩
    cases hv : r.values with
    | none => simp [rowsOf, hv] at h
    | some v =>
      cases hrec : rowsOf nm qs (i + 1) with
      | error e => simp [rowsOf, hv, hrec] at h
      | ok l₂ =>
        simp only [rowsOf, hv, hrec, Except.ok.injEq] at h
        subst h
        obtain ⟨ih1, ih2⟩ := ih (i + 1) l₂ hrec
        constructor
        · simp only [List.map_cons, List.length_cons, List.range'_succ]
          rw [ih1]
          rfl
        · simp only [List.map_cons]
          rw [ih2]
          rfl

/-- Stability of the timestamp sort: the records carrying any fixed date
appear in the sorted list exactly in their original relative order. -/
theorem sortByDate_stable (l : List (ℤ × RawResult)) (t : ℤ) :
    (sortByDate l).filter (fun q => decide (q.1 = t))
      = l.filter (fun q => decide (q.1 = t)) := by
  have hpair : (l.filter fun q => decide (q.1 = t)).Pairwise dateLE := by
    apply List.pairwise_of_forall_mem_list
    intro a ha b hb
    have ha₂ : a.1 = t := by simpa using (List.mem_filter.mp ha).2
    have hb₂ : b.1 = t := by simpa using (List.mem_filter.mp hb).2
    show a.1 ≤ b.1
    rw [ha₂, hb₂]
  have hsub : List.Sublist (l.filter fun q => decide (q.1 = t)) (sortByDate l) :=
    List.sublist_insertionSort hpair (List.filter_sublist l)
  have hsub₂ := hsub.filter fun q => decide (q.1 = t)
  rw [List.filter_filter] at hsub₂
  simp only [Bool.and_self] at hsub₂
  have hperm : List.Perm ((sortByDate l).filter fun q => decide (q.1 = t))
      (l.filter fun q => decide (q.1 = t)) :=
    (List.perm_insertionSort dateLE l).filter _
  exact (hsub₂.eq_of_length hperm.length_eq.symm).symm

/-- Claim C8 (confirmed): within one benchmark's built series, the
`norm_date` values are the strict gapless zero-based enumeration
`0 .. N-1`; the rows are in nondecreasing timestamp order; the sort is by
timestamp and stable — records sharing a timestamp keep their original
relative order (the date-filtered sorted list equals the date-filtered
input). -/
theorem C8_series_enumeration (b : RawBench) (dated : List (ℤ × RawResult)) (rows : List Row)
    (hd : datedOf b.latest_results = .ok dated) (hr : buildRows b = .ok rows) :
    rows.map Row.norm_date = List.range rows.length ∧
    (rows.map Row.date).Sorted (· ≤ ·) ∧
    dated.map Prod.snd = b.latest_results ∧
    ∀ t : ℤ, (sortByDate dated).filter (fun q => decide (q.1 = t))
        = dated.filter (fun q => decide (q.1 = t)) := by
  have hrows : rowsOf b.name (sortByDate dated) 0 = .ok rows := by
    unfold buildRows at hr
    rw [hd] at hr
    exact hr
  obtain ⟨h1, h2⟩ := rowsOf_ok_fields b.name (sortByDate dated) 0 rows hrows
  refine ⟨?_, ?_, datedOf_ok_snd hd, fun t => sortByDate_stable dated t⟩
  · have hlen : rows.length = (sortByDate dated).length := by
      rw [← List.length_map rows Row.norm_date, h1, List.length_range']
    rw [h1, hlen, List.range_eq_range']
  · rw [h2]
    exact List.pairwise_map.mpr (List.sorted_insertionSort dateLE dated)

/-- A benchmark with three records, the later two sharing a timestamp. -/
def c8Bench : RawBench :=
  { name := "b",
    latest_results :=
      [ { date := some 5, values := some (constValues 1) },
        { date := some 3, values := some (constValues 2) },
        { date := some 3, values := some (constValues 3) } ] }

/-- The dated records of `c8Bench`, in original order. -/
def c8Dated : List (ℤ × RawResult) :=
  [ (5, { date := some 5, values := some (constValues 1) }),
    (3, { date := some 3, values := some (constValues 2) }),
    (3, { date := some 3, values := some (constValues 3) }) ]

/-- The series built from `c8Bench`: stably sorted by date, then
enumerated. -/
def c8Rows : List Row :=
  [simpleRow ("b") 3 0 2, simpleRow ("b") 3 1 3, simpleRow ("b") 5 2 1]

/-- Witness for claim C8 on a concrete benchmark with a timestamp tie. -/
theorem C8_series_enumeration_witness :
    datedOf c8Bench.latest_results = .ok c8Dated ∧
    buildRows c8Bench = .ok c8Rows ∧
    c8Rows.map Row.norm_date = List.range c8Rows.length ∧
    (c8Rows.map Row.date).Sorted (· ≤ ·) ∧
    c8Dated.map Prod.snd = c8Bench.latest_results ∧
    (sortByDate c8Dated).filter (fun q => decide (q.1 = 3))
      = c8Dated.filter (fun q => decide (q.1 = 3)) := by
  have hd : datedOf c8Bench.latest_results = .ok c8Dated := rfl
  have hr : buildRows c8Bench = .ok c8Rows := rfl
  obtain ⟨p1, p2, p3, p4⟩ := C8_series_enumeration c8Bench c8Dated c8Rows hd hr
  exact ⟨hd, hr, p1, p2, p3, p4 3⟩

/-! ## The window scan `sequence_chow_test` (claim C9) -/

/-- Embeds the lookup
`df[(df['name'] == benchmark) & (df['norm_date'] == pivot)]['date'].values[0]`.
The Python indexing raises when no row matches; the `0` default is junk no
claim relies upon (every use below bounds the pivot by the series length). -/
def pivotDate (df : List Row) (benchmark : String) (pivot : ℕ) : ℤ :=
  ((df.filter fun r => r.name == benchmark && r.norm_date == pivot).map Row.date).headD 0

/-- The scanning loop of `sequence_chow_test`: walk the pivots in order and
append the pivot's timestamp whenever the Chow test flags it. -/
def scanPivots (ppf : ℚ → ℕ → ℤ → ℚ) (df : List Row) (benchmark : String)
    (x y : List ℚ) : List ℕ → List ℤ
  | [] => []
  | p :: ps =>
    if chow_test ppf x y p alphaDefault kDefault
    then pivotDate df benchmark p :: scanPivots ppf df benchmark x y ps
    else scanPivots ppf df benchmark x y ps

/-- Default `left=19` of `sequence_chow_test`. -/
def leftDefault : ℕ := 19

/-- Default `right=36` of `sequence_chow_test`. -/
def rightDefault : ℕ := 36

/-- Embeds `sequence_chow_test`: regressor `norm_date`, response the chosen
metric column, one Chow test per pivot in `range(left, right)`. -/
def sequence_chow_test (ppf : ℚ → ℕ → ℤ → ℚ) (df : List Row) (benchmark : String)
    (parameter : Metric) (left right : ℕ) : List ℤ :=
  let x : List ℚ := (df.filter fun r => r.name == benchmark).map fun r => (r.norm_date : ℚ)
  let y := benchColumn df benchmark parameter
  scanPivots ppf df benchmark x y (List.range' left (right - left))

/-- The scan loop in closed form: it appends exactly the timestamps of the
flagged pivots, testing each pivot of its argument list once, in order. -/
theorem scanPivots_eq (ppf : ℚ → ℕ → ℤ → ℚ) (df : List Row) (benchmark : String)
    (x y : List ℚ) :
    ∀ ps : List ℕ,
      scanPivots ppf df benchmark x y ps
        = (ps.filter fun p => chow_test ppf x y p alphaDefault kDefault).map
            (pivotDate df benchmark) := by
  intro ps
  induction ps with
  | nil => rfl
  | cons p ps ih =>
    unfold scanPivots
    cases h : chow_test ppf x y p alphaDefault kDefault <;>
      simp [h, ih, List.filter_cons]

/-- Rows whose enumeration starts above `p` never match `norm_date = p`. -/
theorem filter_norm_date_nil :
    ∀ (l : List Row) (s p : ℕ),
      l.map Row.norm_date = List.range' s l.length → p < s →
      l.filter (fun r => r.norm_date == p) = [] := by
  intro l
  induction l with
  | nil => intro s p _ _; rfl
  | cons a l₂ ih =>
    intro s p hmap hp
    simp only [List.map_cons, List.length_cons, List.range'_succ, List.cons.injEq] at hmap
    obtain ⟨ha, hl₂⟩ := hmap
    have htest : (a.norm_date == p) = false := by
      simp only [beq_eq_false_iff_ne, ne_eq]
      omega
    simp only [List.filter_cons, htest, Bool.false_eq_true, if_false]
    exact ih (s + 1) p hl₂ (by omega)

/-- Among rows enumerated from `s`, exactly one row matches `norm_date = p`
for `s ≤ p` below the end, and its date sits at position `p - s`. -/
theorem filter_norm_date_singleton :
    ∀ (l : List Row) (s p : ℕ),
      l.map Row.norm_date = List.range' s l.length →
      s ≤ p → p < s + l.length →
      (l.filter fun r => r.norm_date == p).map Row.date
        = [(l.map Row.date).getD (p - s) 0] := by
  intro l
  induction l with
  | nil =>
    intro s p _ hsp hp
    simp only [List.length_nil] at hp
    omega
  | cons a l₂ ih =>
    intro s p hmap hsp hp
    simp only [List.map_cons, List.length_cons, List.range'_succ, List.cons.injEq] at hmap
    simp only [List.length_cons] at hp
    obtain ⟨ha, hl₂⟩ := hmap
    by_cases hps : p = s
    · subst hps
      have htest : (a.norm_date == p) = true := by
        simp only [beq_iff_eq]
        omega
      simp only [List.filter_cons, htest, if_true, List.map_cons,
        filter_norm_date_nil l₂ (p + 1) p hl₂ (by omega), Nat.sub_self,
        List.getD_cons_zero, List.map_nil]
    · have htest : (a.norm_date == p) = false := by
        simp only [beq_eq_false_iff_ne, ne_eq]
        omega
      simp only [List.filter_cons, htest, Bool.false_eq_true, if_false, List.map_cons]
      rw [ih (s + 1) p hl₂ (by omega) (by omega),
        show p - s = (p - (s + 1)) + 1 by omega, List.getD_cons_succ]

/-- For a dataframe whose benchmark rows are correctly enumerated, the date
looked up for a pivot is the entry of the date column at that pivot. -/
theorem pivotDate_eq_getD (df : List Row) (b : String) (p : ℕ)
    (hn : (df.filter fun r => r.name == b).map Row.norm_date
        = List.range (df.filter fun r => r.name == b).length)
    (hp : p < (df.filter fun r => r.name == b).length) :
    pivotDate df b p = ((df.filter fun r => r.name == b).map Row.date).getD p 0 := by
  unfold pivotDate
  rw [List.range_eq_range'] at hn
  have hsplit : df.filter (fun r => r.name == b && r.norm_date == p)
      = (df.filter fun r => r.name == b).filter fun r => r.norm_date == p := by
    rw [List.filter_filter]
    apply List.filter_congr
    intro r _
    rw [Bool.and_comm]
  rw [hsplit, filter_norm_date_singleton _ 0 p hn (by omega) (by omega)]
  simp

/-- A nondecreasing list has nondecreasing `getD` entries at in-bound
positions. -/
theorem getD_mono_of_sorted {dates : List ℤ} (h : dates.Sorted (· ≤ ·)) {p q : ℕ}
    (hpq : p < q) (hq : q < dates.length) : dates.getD p 0 ≤ dates.getD q 0 := by
  have hp : p < dates.length := lt_trans hpq hq
  rw [List.getD_eq_getElem?_getD, List.getD_eq_getElem?_getD,
    List.getElem?_eq_getElem hp, List.getElem?_eq_getElem hq]
  simp only [Option.getD_some]
  have := List.pairwise_iff_get.mp h ⟨p, hp⟩ ⟨q, hq⟩ hpq
  simpa using this

/-- Claim C9 (amended): the window scan tests each pivot of `[left, right)`
exactly once, in order, and returns the timestamps of the flagged pivots;
provided the benchmark's rows are enumerated `0..N-1` in nondecreasing
date order (the invariant `create_dataframe` establishes) and the window
fits the series, the returned timestamps are nondecreasing — but distinct
flagged pivots may carry equal timestamps, so duplicates are possible.
The default window is `[19, 36)`. -/
theorem C9_scan_each_pivot_once_sorted (ppf : ℚ → ℕ → ℤ → ℚ) (df : List Row)
    (benchmark : String) (parameter : Metric) (left right : ℕ)
    (hn : (df.filter fun r => r.name == benchmark).map Row.norm_date
        = List.range (df.filter fun r => r.name == benchmark).length)
    (hsorted : ((df.filter fun r => r.name == benchmark).map Row.date).Sorted (· ≤ ·))
    (hright : right ≤ (df.filter fun r => r.name == benchmark).length) :
    sequence_chow_test ppf df benchmark parameter left right
      = ((List.range' left (right - left)).filter fun p =>
          chow_test ppf ((df.filter fun r => r.name == benchmark).map fun r =>
              (r.norm_date : ℚ))
            (benchColumn df benchmark parameter) p alphaDefault kDefault).map
          (pivotDate df benchmark) ∧
    (sequence_chow_test ppf df benchmark parameter left right).Sorted (· ≤ ·) ∧
    leftDefault = 19 ∧ rightDefault = 36 := by
  have heq : sequence_chow_test ppf df benchmark parameter left right
      = ((List.range' left (right - left)).filter fun p =>
          chow_test ppf ((df.filter fun r => r.name == benchmark).map fun r =>
              (r.norm_date : ℚ))
            (benchColumn df benchmark parameter) p alphaDefault kDefault).map
          (pivotDate df benchmark) := by
    unfold sequence_chow_test
    exact scanPivots_eq ppf df benchmark _ _ _
  refine ⟨heq, ?_, rfl, rfl⟩
  rw [heq]
  have hrange : (List.range' left (right - left)).Pairwise (· < ·) := by
    rw [List.range'_eq_map_range]
    exact List.pairwise_map.mpr ((List.sorted_lt_range _).imp fun hab => by omega)
  have hfil : ((List.range' left (right - left)).filter fun p =>
      chow_test ppf ((df.filter fun r => r.name == benchmark).map fun r =>
          (r.norm_date : ℚ))
        (benchColumn df benchmark parameter) p alphaDefault kDefault).Pairwise (· < ·) :=
    hrange.sublist (List.filter_sublist _)
  apply List.pairwise_map.mpr
  apply hfil.imp_of_mem
  intro a b ha hb hab
  have hbmem := (List.mem_filter.mp hb).1
  obtain ⟨i, hi, hbi⟩ := List.mem_range'.mp hbmem
  have hblt : b < (df.filter fun r => r.name == benchmark).length := by omega
  have halt : a < (df.filter fun r => r.name == benchmark).length := by omega
  rw [pivotDate_eq_getD df benchmark a hn halt, pivotDate_eq_getD df benchmark b hn hblt]
  exact getD_mono_of_sorted hsorted hab (by simpa using hblt)

/-- A dataframe with three well-enumerated rows for one benchmark. -/
def c9Df : List Row :=
  [simpleRow ("w") 100 0 1, simpleRow ("w") 200 1 2, simpleRow ("w") 300 2 9]

/-- Witness for the amended claim C9 on a concrete dataframe and window. -/
theorem C9_scan_each_pivot_once_sorted_witness :
    ((c9Df.filter fun r => r.name == ("w")).map Row.norm_date
        = List.range (c9Df.filter fun r => r.name == ("w")).length) ∧
    ((c9Df.filter fun r => r.name == ("w")).map Row.date).Sorted (· ≤ ·) ∧
    2 ≤ (c9Df.filter fun r => r.name == ("w")).length ∧
    (sequence_chow_test ppfZero c9Df ("w") Metric.rps 1 2).Sorted (· ≤ ·) := by
  have h1 : (c9Df.filter fun r => r.name == ("w")).map Row.norm_date
      = List.range (c9Df.filter fun r => r.name == ("w")).length := by decide
  have h2 : ((c9Df.filter fun r => r.name == ("w")).map Row.date).Sorted (· ≤ ·) := by
    decide
  have h3 : 2 ≤ (c9Df.filter fun r => r.name == ("w")).length := by decide
  exact ⟨h1, h2, h3,
    (C9_scan_each_pivot_once_sorted ppfZero c9Df ("w") Metric.rps 1 2 h1 h2 h3).2.1⟩

/-- A quantile stand-in of one million — far above any upper F quantile the
source's `alpha` and window produce at these degrees of freedom — so any
pivot flagged against it is flagged against the true quantile a fortiori. -/
def ppfBig : ℚ → ℕ → ℤ → ℚ := fun _ _ _ => 1000000

/-- A 7-point series for one benchmark whose rows at `norm_date` 2 and 3
share the timestamp 12, with a massive level shift after index 2. -/
def c9DupDf : List Row :=
  [simpleRow ("d") 10 0 0, simpleRow ("d") 11 1 1, simpleRow ("d") 12 2 2,
   simpleRow ("d") 12 3 30000, simpleRow ("d") 13 4 40000,
   simpleRow ("d") 14 5 50000, simpleRow ("d") 15 6 60001]

/-- Claim C9 (counterexample): scanning the window `[2, 4)` of `c9DupDf`
flags both pivots 2 and 3, whose rows carry the same timestamp 12, so the
returned list is `[12, 12]` — duplicates are possible, contradicting the
claim. -/
theorem C9_duplicate_timestamps :
    sequence_chow_test ppfBig c9DupDf ("d") Metric.total 2 4 = [12, 12] ∧
    ¬ (sequence_chow_test ppfBig c9DupDf ("d") Metric.total 2 4).Nodup := by
  have h : sequence_chow_test ppfBig c9DupDf ("d") Metric.total 2 4 = [12, 12] := by
    norm_num [sequence_chow_test, scanPivots, chow_test, chowStat, olsSSR, olsSlope,
      benchColumn, pivotDate, c9DupDf, simpleRow, Row.metric, alphaDefault, kDefault,
      ppfBig, List.range']
  refine ⟨h, ?_⟩
  rw [h]
  decide

end PerfMeter
